import Mathlib

/-!
Shallow embedding of the data-preparation pipeline in `src/asr/aspire.py`
(pytorch-asr, ASpIRE recipe), together with theorems settling the frozen
claims about it.  Machine floats appearing in the Python source (segment
start/end times, window parameters) are modelled as rationals; Python
`int()` truncation and `//` floor division are modelled explicitly.
-/

namespace Aspire

/-- Python `int()` applied to a rational: truncation toward zero. -/
def pytrunc (x : ℚ) : ℤ := if 0 ≤ x then ⌊x⌋ else ⌈x⌉

/-! ### TranscriptNormalizer: `strip_text` (aspire.py lines 47-50) -/

/-- The character mask of `strip_text`: `"abcdefghijklmnopqrstuvwxyz'- "`. -/
def mask : List Char := "abcdefghijklmnopqrstuvwxyz'- ".data

/-- `strip_text(text)`: lowercase the whole string, then keep exactly the
characters belonging to `mask`, in order (aspire.py lines 47-50). -/
def strip_text (text : String) : String :=
  String.mk ((text.data.map Char.toLower).filter (fun c => c ∈ mask))

/-! ### SegmentExtractor: the per-segment arithmetic of `split_wav`
(aspire.py lines 84-97).  A segment is `(uttid, start seconds, end seconds)`;
`fr` is the sample rate read from the container, `nf` the total sample count,
`margin` the value `SAMPLE_MARGIN`. -/

/-- A `segments`-file row restricted to one recording: (uttid, start, end). -/
abbrev Segment := String × ℚ × ℚ

/-- `fs = int(fr * start - SAMPLE_MARGIN)` (aspire.py line 85). -/
def seg_fs (fr start margin : ℚ) : ℤ := pytrunc (fr * start - margin)

/-- `fe = int(fr * end + SAMPLE_MARGIN)` (aspire.py line 85). -/
def seg_fe (fr endt margin : ℚ) : ℤ := pytrunc (fr * endt + margin)

/-- The inner loop of `split_wav` over the segments of one recording
(aspire.py lines 84-97): a segment is dropped when `fs < 0 or fe > nf`,
otherwise exactly one clip of `fe - fs` samples is emitted and
`(uttid, fe - fs)` recorded in the manifest. -/
def splitWavSegs (fr margin : ℚ) (nf : ℤ) : List Segment → List (String × ℤ)
  | [] => []
  | (u, s, e) :: rest =>
    if seg_fs fr s margin < 0 ∨ nf < seg_fe fr e margin then
      splitWavSegs fr margin nf rest
    else
      (u, seg_fe fr e margin - seg_fs fr s margin) :: splitWavSegs fr margin nf rest

/-! ### FrameMath: `_samples2frames` (aspire.py lines 201-203).
The constants `SAMPLE_MARGIN`, `WIN_SAMP_SIZE`, `WIN_SAMP_SHIFT` are products
of parameters from `asr/utils/params.py`, which is absent from src; they are
kept as explicit integer arguments, faithful to the spec's
`samplesToFrames(totalSamples, windowSize, windowShift, margin)`. -/

/-- `_samples2frames(samples)`: Python `//` is floor division, `Int.fdiv`.
Modelled from the spec: the sample-count constants (window size, window
shift, margin, from the missing `params` module) are passed as arguments. -/
def samples2frames (margin winSize winShift samples : ℤ) : ℤ :=
  Int.fdiv (samples - 2 * margin - winSize) winShift + 1

/-! ### Split rule and manifest building (aspire.py lines 152-198) -/

/-- Python `int(...)` on a decimal-digit substring of an utterance id. -/
def pyInt (s : List Char) : ℤ :=
  s.foldl (fun a c => a * 10 + ((c.toNat : ℤ) - 48)) 0

/-- The numeric code `int(uttid[6:11])` of an utterance id. -/
def uttidCode (u : String) : ℤ := pyInt ((u.data.drop 6).take 5)

/-- Destination manifest file of a record. -/
inductive Split
  | train
  | dev
deriving DecidableEq

/-- Routing in `prepare_data` (aspire.py lines 172-175):
`if 0 < int(k[6:11]) < 60` the row goes to `dev.csv`, else `train.csv`. -/
def prepareDest (u : String) : Split :=
  if 0 < uttidCode u ∧ uttidCode u < 60 then .dev else .train

/-- Routing in `reconstruct_manifest` (aspire.py lines 194-197):
`if 0 < int(uttid[6:11]) < 60` the row goes to `dev.csv`, else `train.csv`. -/
def reconstructDest (u : String) : Split :=
  if 0 < uttidCode u ∧ uttidCode u < 60 then .dev else .train

/-- One manifest CSV row:
(uttid, wav file, samples, phn file, num frames, txt file). -/
abbrev Row := String × String × ℤ × String × ℤ × String

/-- The join loop of `prepare_data` (aspire.py lines 162-175): iterate the
audio manifest; skip an id absent from the transcript manifest or from the
alignment manifest; route surviving rows to (train.csv, dev.csv). -/
def prepareData (txtM : List (String × String × String))
    (phnM : List (String × String × ℤ × List ℤ)) :
    List (String × String × ℤ) → List Row × List Row
  | [] => ([], [])
  | (k, wavFile, samples) :: rest =>
    let p := prepareData txtM phnM rest
    match txtM.lookup k with
    | none => p
    | some (txtFile, _) =>
      match phnM.lookup k with
      | none => p
      | some (phnFile, numFrms, _) =>
        match prepareDest k with
        | .dev => (p.1, (k, wavFile, samples, phnFile, numFrms, txtFile) :: p.2)
        | .train => ((k, wavFile, samples, phnFile, numFrms, txtFile) :: p.1, p.2)

/-! ### `reconstruct_manifest` companion-path derivation
(aspire.py lines 186-188): `str(wav_file).replace("wav", "txt")` and
`.replace("wav", "phn")` over the full path string. -/

/-- Does `pat` occur as a prefix of `l`? -/
def matchesAt : List Char → List Char → Bool
  | [], _ => true
  | _ :: _, [] => false
  | p :: ps, c :: cs => p == c && matchesAt ps cs

/-- Python `str.replace`: replace every non-overlapping occurrence of `pat`,
scanning left to right.  The fuel argument (instantiated with the string
length) only serves structural termination; with nonempty `pat` each
replacement consumes at least one character, so fuel never runs out. -/
def pyReplaceAux (pat rep : List Char) : ℕ → List Char → List Char
  | _, [] => []
  | 0, l => l
  | fuel + 1, c :: rest =>
    if pat ≠ [] ∧ matchesAt pat (c :: rest) then
      rep ++ pyReplaceAux pat rep fuel ((c :: rest).drop pat.length)
    else
      c :: pyReplaceAux pat rep fuel rest

/-- Python `s.replace(pat, rep)` for nonempty `pat`. -/
def pyReplace (s pat rep : String) : String :=
  String.mk (pyReplaceAux pat.data rep.data s.data.length s.data)

/-- The `.txt` and `.phn` companion paths `reconstruct_manifest` derives from
an audio file path (aspire.py lines 187-188). -/
def reconstructCompanions (wavFile : String) : String × String :=
  (pyReplace wavFile "wav" "txt", pyReplace wavFile "wav" "phn")

/-! ### WindowedDatasetView access: `Aspire.__getitem__`
(aspire.py lines 230-247), supervised modes -/

/-- One windowed audio frame (or one one-hot label vector); the scalar type
stands in for the tensor entries. -/
abbrev Frame := List ℤ

/-- Modelled from the spec: the `Int2OneHot` target transform from
`asr/utils/audio.py`, which is absent from src — each integer label becomes
a one-hot vector over `n` label classes. -/
def int2onehot (n : ℕ) (c : ℤ) : Frame :=
  (List.range n).map (fun i => if (i : ℤ) = c then 1 else 0)

/-- `torch.zeros_like(t)`: a zero frame of the same shape as `t`. -/
def zerosLike (t : Frame) : Frame := t.map (fun _ => 0)

/-- The supervised path of `Aspire.__getitem__` (aspire.py lines 237-247),
given the windowed audio sequence produced by the transform and the integer
labels read from the phn file.  The padding branch evaluates `tensors[0]`,
which raises IndexError on an empty audio sequence: that failure is
modelled as `none`. -/
def aspireGet (numLabels : ℕ) (tensors : List Frame) (phns : List ℤ) :
    Option (List Frame × List Frame) :=
  let targets := phns.map (int2onehot numLabels)
  let l0 := tensors.length
  let l1 := targets.length
  if l1 < l0 then some (tensors.take l1, targets)
  else if l0 < l1 then
    match tensors with
    | [] => none
    | t0 :: _ => some (tensors ++ List.replicate (l1 - l0) (zerosLike t0), targets)
  else some (tensors, targets)

/-! ### WindowedDatasetView loading: `Aspire._load_manifest`
(aspire.py lines 252-272) -/

/-- Modelled from the spec: Python `random.sample(pop, k)` draws `k`
elements without replacement, uniformly; the random choice is abstracted
as the list `idxs` of chosen positions (pairwise distinct and in range
for any actual run of the generator).  `random.sample` raises ValueError
when `k` exceeds the population size; that failure is modelled as `none`. -/
def pySample {α : Type} [Inhabited α] (pop : List α) (k : ℕ) (idxs : List ℕ) :
    Option (List α) :=
  if k ≤ pop.length ∧ idxs.length = k ∧ idxs.Nodup ∧ ∀ i ∈ idxs, i < pop.length then
    some (idxs.map (fun i => pop.getD i default))
  else none

/-- `Aspire._load_manifest` after reading the CSV rows (aspire.py lines
262-267): filter out rows whose estimated frame count is `≤ 100`, then draw
`random.sample(filtered, min(data_size, len(manifest)))` — note the `min`
is taken against the raw line count, not the filtered count. -/
def loadManifest (margin winSize winShift : ℤ) (dataSize : ℕ) (idxs : List ℕ)
    (entries : List Row) : Option (List Row) :=
  let filtered := entries.filter
    (fun e => 100 < samples2frames margin winSize winShift e.2.2.1)
  pySample filtered (min dataSize entries.length) idxs

/-! ### AlignmentDecoder parsing: the loop of `get_alignments`
(aspire.py lines 136-148) -/

/-- Modelled from the spec: the tokens of the binary stream read by
`read_string` / `read_vec_int` from `asr/utils/kaldi_io.py`, which is
absent from src — a length-prefixed string or a length-prefixed integer
vector. -/
inductive StreamTok
  | strTok (s : String)
  | vecTok (v : List ℤ)
deriving DecidableEq

/-- The parsing loop of `get_alignments` over one archive's decoded stream
(aspire.py lines 137-148): `read_string` failure (end of stream, or a
token that is not a string) breaks the loop cleanly; after a successful
`read_string`, a missing or malformed integer vector is an uncaught hard
failure.  Returns the entries parsed before stopping and whether a hard
failure occurred. -/
def parseStream : List StreamTok → List (String × List ℤ) × Bool
  | [] => ([], false)
  | .strTok s :: .vecTok v :: rest =>
    let p := parseStream rest
    ((s, v) :: p.1, p.2)
  | .strTok _ :: _ => ([], true)
  | .vecTok _ :: _ => ([], false)

/-- A well-formed stream: each record is a string token followed by its
integer-vector token. -/
def encodeRecs (recs : List (String × List ℤ)) : List StreamTok :=
  recs.flatMap (fun r => [.strTok r.1, .vecTok r.2])

end Aspire

namespace Aspire

/-! ### Theorems for the transcript normalizer (C7) -/

/-- Every character of the mask is fixed by `Char.toLower`. -/
theorem mask_toLower_fixed : ∀ c ∈ mask, c.toLower = c := by decide

/-- C7 counterexample: on the spec's own test input, `strip_text` keeps the
space before `"123"`, so the output carries a trailing space and differs
from the claimed `"hello world"`. -/
theorem strip_text_hello_cex : strip_text "Hello, World! 123" ≠ "hello world" := by
  decide

/-- C7 (amended): `strip_text "Hello, World! 123"` is `"hello world "`
(trailing space kept, since the space before the digits survives the
filter); the output alphabet is contained in the mask; and `strip_text`
is idempotent. -/
theorem strip_text_normalizes :
    strip_text "Hello, World! 123" = "hello world " ∧
    (∀ s : String, ∀ c ∈ (strip_text s).data, c ∈ mask) ∧
    (∀ s : String, strip_text (strip_text s) = strip_text s) := by
  refine ⟨by decide, ?_, ?_⟩
  · intro s c hc
    simp only [strip_text, String.data] at hc
    have := List.mem_filter.mp hc
    exact of_decide_eq_true this.2
  · intro s
    show String.mk _ = String.mk _
    congr 1
    rw [show (strip_text s).data = (s.data.map Char.toLower).filter (fun c => c ∈ mask)
      from rfl]
    have hfix : ∀ c ∈ (s.data.map Char.toLower).filter (fun c => c ∈ mask),
        Char.toLower c = c := by
      intro c hc
      have := List.mem_filter.mp hc
      exact mask_toLower_fixed c (of_decide_eq_true this.2)
    rw [List.map_congr_left hfix, List.map_id']
    apply List.filter_eq_self.mpr
    intro c hc
    exact (List.mem_filter.mp hc).2

/-! ### Theorems for the split rule (C6) -/

/-- C6: `prepare_data` and `reconstruct_manifest` route by the identical
rule on the numeric code `int(uttid[6:11])`: code 30 goes to the dev
manifest, codes 0, 60 and 200 to the train manifest (both bounds of
`0 < code < 60` exclusive). -/
theorem split_rule_consistent :
    (∀ u : String, prepareDest u = reconstructDest u) ∧
    prepareDest "AAAAAA00030A" = Split.dev ∧
    prepareDest "AAAAAA00000A" = Split.train ∧
    prepareDest "AAAAAA00060A" = Split.train ∧
    prepareDest "AAAAAA00200A" = Split.train ∧
    reconstructDest "AAAAAA00030A" = Split.dev ∧
    reconstructDest "AAAAAA00000A" = Split.train ∧
    reconstructDest "AAAAAA00060A" = Split.train ∧
    reconstructDest "AAAAAA00200A" = Split.train :=
  ⟨fun _ => rfl, by decide, by decide, by decide, by decide,
    by decide, by decide, by decide, by decide⟩

/-! ### Theorems for the reconstructed companion paths (C9) -/

/-- C9: `reconstruct_manifest` derives the text and label paths by replacing
every occurrence of `"wav"` in the whole audio path; for a target directory
whose path itself contains `"wav"` the derived paths differ from the actual
sibling files `<stem>.txt` / `<stem>.phn` next to the audio file. -/
theorem reconstruct_wrong_companions :
    reconstructCompanions "/data/wav/001/utt.wav"
      = ("/data/txt/001/utt.txt", "/data/phn/001/utt.phn") ∧
    "/data/txt/001/utt.txt" ≠ "/data/wav/001/utt.txt" ∧
    "/data/phn/001/utt.phn" ≠ "/data/wav/001/utt.phn" := by
  refine ⟨by decide, by decide, by decide⟩

/-! ### Theorems for the segment extractor (C1) -/

/-- C1 counterexample: the code computes `fe = int(fr*end + margin)`
(truncation of the combined sum), not `ceil(fr*end) + margin`.  At sample
rate 8000, margin 80, a recording of 3000 samples and the segment
`(start = 1/80 s, end = 0.3333 s)`, the emitted clip has
`2746 - 20 = 2726` samples, while the claim's
`(ceil(rate*end) + margin) - (floor(rate*start) - margin)` predicts 2727. -/
theorem splitwav_formula_cex :
    splitWavSegs 8000 80 3000 [("u", 1/80, 3333/10000)] = [("u", 2726)] ∧
    (⌈(8000 : ℚ) * (3333/10000)⌉ + 80) - (⌊(8000 : ℚ) * (1/80)⌋ - 80) = 2727 := by
  have hfs : seg_fs 8000 (1/80) 80 = 20 := by
    unfold seg_fs pytrunc
    rw [if_pos (by norm_num), Int.floor_eq_iff]
    norm_num
  have hfe : seg_fe 8000 (3333/10000) 80 = 2746 := by
    unfold seg_fe pytrunc
    rw [if_pos (by norm_num), Int.floor_eq_iff]
    norm_num
  have hceil : ⌈(8000 : ℚ) * (3333/10000)⌉ = 2667 := by
    rw [Int.ceil_eq_iff]
    norm_num
  have hfloor : ⌊(8000 : ℚ) * (1/80)⌋ = 100 := by
    rw [Int.floor_eq_iff]
    norm_num
  constructor
  · simp only [splitWavSegs, hfs, hfe]
    norm_num
  · rw [hceil, hfloor]
    decide

/-- C1 (amended): with `fs = int(fr*start - margin)` and
`fe = int(fr*end + margin)` (Python truncation toward zero of the combined
expressions), `split_wav` emits, per segment, no clip and no manifest entry
when `fs < 0` or `fe > totalSamples`, and otherwise exactly one clip of
`fe - fs` samples recorded as `(uttid, fe - fs)`. -/
theorem splitwav_clips (fr margin : ℚ) (nf : ℤ) (segs : List Segment) :
    splitWavSegs fr margin nf segs =
      segs.filterMap (fun x =>
        if seg_fs fr x.2.1 margin < 0 ∨ nf < seg_fe fr x.2.2 margin then none
        else some (x.1, seg_fe fr x.2.2 margin - seg_fs fr x.2.1 margin)) := by
  induction segs with
  | nil => rfl
  | cons a rest ih =>
    obtain ⟨u, s, e⟩ := a
    by_cases h : seg_fs fr s margin < 0 ∨ nf < seg_fe fr e margin
    · simp [splitWavSegs, List.filterMap_cons, h, ih]
    · simp [splitWavSegs, List.filterMap_cons, h, ih]

/-! ### Theorems for the frame arithmetic (C4) -/

/-- C4 counterexample: `_samples2frames` is not non-negative for every
sample count — at 0 total samples (margin 800, window 200, shift 80
samples) it returns a negative frame count. -/
theorem samples2frames_negative_cex : samples2frames 800 200 80 0 < 0 := by decide

/-- C4 (amended): `_samples2frames` returns exactly
`floor((totalSamples - 2*margin - windowSize) / windowShift) + 1`; the
result can be negative for small sample counts, and is non-negative
whenever `totalSamples >= 2*margin + windowSize`. -/
theorem samples2frames_formula (margin winSize winShift samples : ℤ)
    (h : 0 < winShift) :
    samples2frames margin winSize winShift samples
      = ⌊((samples : ℚ) - 2 * margin - winSize) / winShift⌋ + 1 ∧
    (2 * margin + winSize ≤ samples →
      0 ≤ samples2frames margin winSize winShift samples) := by
  constructor
  · unfold samples2frames
    congr 1
    rw [Int.fdiv_eq_ediv _ h.le]
    obtain ⟨d, hd, rfl⟩ : ∃ d : ℕ, 0 < d ∧ winShift = (d : ℤ) :=
      ⟨winShift.toNat, by omega, (Int.toNat_of_nonneg h.le).symm⟩
    rw [← Rat.floor_intCast_div_natCast (samples - 2 * margin - winSize) d]
    congr 1
    push_cast
    ring
  · intro hs
    have h0 : 0 ≤ Int.fdiv (samples - 2 * margin - winSize) winShift :=
      Int.fdiv_nonneg (by omega) h.le
    unfold samples2frames
    omega

/-- Witness for `samples2frames_formula` at margin 800, window 200,
shift 80, 16000 samples: the hypothesis `0 < 80` holds and the frame
count evaluates to 178. -/
theorem samples2frames_formula_witness :
    (0 : ℤ) < 80 ∧ samples2frames 800 200 80 16000 = 178 :=
  ⟨by decide, by
    have h := (samples2frames_formula 800 200 80 16000 (by decide)).1
    have hf : ⌊(((16000 : ℤ) : ℚ) - 2 * ((800 : ℤ) : ℚ) - ((200 : ℤ) : ℚ))
        / ((80 : ℤ) : ℚ)⌋ = 177 := by
      rw [Int.floor_eq_iff]
      norm_num
    rw [h, hf]
    decide⟩

/-! ### Theorems for the manifest join (C2) -/

/-- An id reaches the output of the `prepare_data` join loop iff it is a key
of the audio manifest and both other manifest lookups succeed. -/
theorem prepareData_mem_ids (txtM : List (String × String × String))
    (phnM : List (String × String × ℤ × List ℤ))
    (wavM : List (String × String × ℤ)) (k : String) :
    (k ∈ ((prepareData txtM phnM wavM).1 ++ (prepareData txtM phnM wavM).2).map
        (fun r => r.1)) ↔
    (k ∈ wavM.map (fun w => w.1) ∧ (txtM.lookup k).isSome ∧
      (phnM.lookup k).isSome) := by
  induction wavM with
  | nil => simp [prepareData]
  | cons a rest ih =>
    obtain ⟨k', wf, sm⟩ := a
    by_cases hk : k = k'
    · subst hk
      cases htxt : txtM.lookup k with
      | none =>
        simp only [prepareData, htxt]
        rw [ih]
        simp [htxt]
      | some tv =>
        obtain ⟨tf, tx⟩ := tv
        cases hphn : phnM.lookup k with
        | none =>
          simp only [prepareData, htxt, hphn]
          rw [ih]
          simp [htxt, hphn]
        | some pv =>
          obtain ⟨pf, nf, ph⟩ := pv
          cases hdest : prepareDest k with
          | dev =>
            simp only [prepareData, htxt, hphn, hdest]
            simp [htxt, hphn]
          | train =>
            simp only [prepareData, htxt, hphn, hdest]
            simp [htxt, hphn]
    · cases htxt : txtM.lookup k' with
      | none =>
        simp only [prepareData, htxt]
        rw [ih]
        simp [hk]
      | some tv =>
        obtain ⟨tf, tx⟩ := tv
        cases hphn : phnM.lookup k' with
        | none =>
          simp only [prepareData, htxt, hphn]
          rw [ih]
          simp [hk]
        | some pv =>
          obtain ⟨pf, nf, ph⟩ := pv
          cases hdest : prepareDest k' with
          | dev =>
            simp only [prepareData, htxt, hphn, hdest]
            simp only [List.map_append, List.map_cons, List.mem_append,
              List.mem_cons, hk, false_or] at ih ⊢
            tauto
          | train =>
            simp only [prepareData, htxt, hphn, hdest]
            simp only [List.map_append, List.map_cons, List.mem_append,
              List.mem_cons, hk, false_or] at ih ⊢
            tauto

/-- C2: the `prepare_data` join emits a record for an utterance id iff the
id is present in all three input manifests; an id missing from any is
silently excluded.  Concretely, audio = {A, B}, text = {A, B, C},
align = {A} yields exactly the record for A. -/
theorem prepare_data_inner_join :
    (∀ (txtM : List (String × String × String))
       (phnM : List (String × String × ℤ × List ℤ))
       (wavM : List (String × String × ℤ)) (k : String),
       (k ∈ ((prepareData txtM phnM wavM).1 ++ (prepareData txtM phnM wavM).2).map
           (fun r => r.1)) ↔
       (k ∈ wavM.map (fun w => w.1) ∧ (txtM.lookup k).isSome ∧
         (phnM.lookup k).isSome)) ∧
    prepareData
      [("AAAAAA00100A", "a.txt", "aa"), ("BBBBBB00100B", "b.txt", "bb"),
       ("CCCCCC00100C", "c.txt", "cc")]
      [("AAAAAA00100A", "a.phn", 100, [])]
      [("AAAAAA00100A", "a.wav", 16000), ("BBBBBB00100B", "b.wav", 16000)]
      = ([("AAAAAA00100A", "a.wav", 16000, "a.phn", 100, "a.txt")], []) :=
  ⟨prepareData_mem_ids, rfl⟩

/-! ### Theorems for `__getitem__` length reconciliation (C3, C10) -/

/-- C3: whenever the supervised `get` returns a pair, the returned audio
sequence has exactly as many frames as the label sequence — the first `l1`
audio frames when the audio is longer, the audio followed by zero-valued
frames when shorter — and the returned labels are exactly the transformed
labels of the phn file, never truncated or padded. -/
theorem aspire_get_reconciles (n : ℕ) (tensors : List Frame) (phns : List ℤ)
    (res : List Frame × List Frame)
    (h : aspireGet n tensors phns = some res) :
    res.1.length = phns.length ∧
    res.2 = phns.map (int2onehot n) ∧
    (phns.length < tensors.length → res.1 = tensors.take phns.length) ∧
    (tensors.length < phns.length →
      ∃ t0 rest, tensors = t0 :: rest ∧
        res.1 = tensors ++
          List.replicate (phns.length - tensors.length) (zerosLike t0)) := by
  simp only [aspireGet, List.length_map] at h
  by_cases h1 : phns.length < tensors.length
  · rw [if_pos h1] at h
    obtain rfl := (Option.some.inj h)
    dsimp only
    refine ⟨?_, rfl, fun _ => rfl, fun h2 => absurd h1 (by omega)⟩
    simp only [List.length_take]
    omega
  · rw [if_neg h1] at h
    by_cases h2 : tensors.length < phns.length
    · rw [if_pos h2] at h
      cases tensors with
      | nil => exact absurd h (by simp)
      | cons t0 ts =>
        obtain rfl := (Option.some.inj h)
        dsimp only
        refine ⟨?_, rfl, fun h3 => absurd h2 (by omega), fun _ => ⟨t0, ts, rfl, rfl⟩⟩
        simp only [List.length_cons] at h2
        simp only [List.length_append, List.length_replicate, List.length_cons,
          List.length_map]
        omega
    · rw [if_neg h2] at h
      obtain rfl := (Option.some.inj h)
      dsimp only
      exact ⟨by omega, rfl, fun h3 => absurd h3 (by omega),
        fun h3 => absurd h3 (by omega)⟩

/-- Witness for `aspire_get_reconciles`: a 3-frame audio sequence against
5 labels is padded with two zero frames; the hypothesis is discharged by
evaluating `aspireGet`. -/
theorem aspire_get_reconciles_witness :
    aspireGet 2 [[1], [2], [3]] [0, 1, 0, 1, 1]
      = some ([[1], [2], [3], [0], [0]],
              [[1, 0], [0, 1], [1, 0], [0, 1], [0, 1]]) ∧
    ([[1], [2], [3], [0], [0]] : List Frame).length = 5 := by
  have h : aspireGet 2 [[1], [2], [3]] [0, 1, 0, 1, 1]
      = some ([[1], [2], [3], [0], [0]],
              [[1, 0], [0, 1], [1, 0], [0, 1], [0, 1]]) := by decide
  have hc := aspire_get_reconciles 2 [[1], [2], [3]] [0, 1, 0, 1, 1] _ h
  exact ⟨h, hc.1.trans (by decide)⟩

/-- C10: the padding branch of `get` builds its zero frame from
`tensors[0]`, so with an empty audio sequence and a non-empty label
sequence the access fails (IndexError, modelled as `none`); with a
non-empty audio sequence `get` always returns a pair. -/
theorem aspire_get_empty_audio (n : ℕ) (phns : List ℤ) (h : phns ≠ []) :
    aspireGet n [] phns = none ∧
    ∀ tensors : List Frame, tensors ≠ [] → (aspireGet n tensors phns).isSome := by
  constructor
  · have hpos : 0 < phns.length := List.length_pos.mpr h
    simp only [aspireGet, List.length_map, List.length_nil]
    rw [if_neg (Nat.not_lt_zero _), if_pos hpos]
  · intro tensors ht
    obtain ⟨t0, ts, rfl⟩ := List.exists_cons_of_ne_nil ht
    simp only [aspireGet, List.length_map]
    by_cases h1 : phns.length < (t0 :: ts).length
    · rw [if_pos h1]
      rfl
    · rw [if_neg h1]
      by_cases h2 : (t0 :: ts).length < phns.length
      · rw [if_pos h2]
        rfl
      · rw [if_neg h2]
        rfl

/-- Witness for `aspire_get_empty_audio`: with one label and no audio
frames the access fails; with one audio frame it succeeds. -/
theorem aspire_get_empty_audio_witness :
    aspireGet 2 [] [1] = none ∧ (aspireGet 2 [[5]] [1]).isSome :=
  ⟨(aspire_get_empty_audio 2 [1] (by decide)).1,
   (aspire_get_empty_audio 2 [1] (by decide)).2 [[5]] (by decide)⟩

/-! ### Theorems for manifest loading (C5) -/

/-- C5 failing input: `_load_manifest` passes
`min(data_size, len(manifest))` — the raw line count, not the filtered
count — to `random.sample`.  With two records of which the first
(estimated 78 frames) is filtered out and the second (178 frames) kept,
and a large `data_size`, `random.sample(filtered, 2)` is asked for 2
elements from a population of 1 and raises, for every random draw;
the claim instead requires all filtered records to be kept.  With
`data_size = 1`, smaller than the filtered population bound, sampling
does return exactly one record, the 178-frame one. -/
theorem load_manifest_size_bug :
    (∀ idxs : List ℕ,
      loadManifest 800 200 80 1000000 idxs
        [("AAAAAA00100A", "a.wav", 8000, "a.phn", 78, "a.txt"),
         ("BBBBBB00100B", "b.wav", 16000, "b.phn", 178, "b.txt")] = none) ∧
    loadManifest 800 200 80 1 [0]
        [("AAAAAA00100A", "a.wav", 8000, "a.phn", 78, "a.txt"),
         ("BBBBBB00100B", "b.wav", 16000, "b.phn", 178, "b.txt")]
      = some [("BBBBBB00100B", "b.wav", 16000, "b.phn", 178, "b.txt")] := by
  constructor
  · intro idxs
    simp only [loadManifest, pySample]
    rw [if_neg]
    rintro ⟨hle, -⟩
    revert hle
    decide
  · rfl

/-! ### Theorems for alignment-stream parsing (C8) -/

/-- Parsing a well-formed prefix of records continues into the rest of the
stream, accumulating the records in order. -/
theorem parseStream_encode_append (recs : List (String × List ℤ))
    (suffix : List StreamTok) :
    parseStream (encodeRecs recs ++ suffix)
      = (recs ++ (parseStream suffix).1, (parseStream suffix).2) := by
  induction recs with
  | nil => simp [encodeRecs]
  | cons r rs ih =>
    obtain ⟨s, v⟩ := r
    have hstep : encodeRecs ((s, v) :: rs)
        = .strTok s :: .vecTok v :: encodeRecs rs := rfl
    rw [hstep, List.cons_append, List.cons_append]
    simp only [parseStream]
    rw [ih]
    simp

/-- C8: a stream of `n` well-formed records followed by exhaustion parses to
exactly `n` entries with no error (two records give exactly two entries);
a head token that is not a string token stops parsing cleanly; and a valid
string token followed by a truncated stream, or by something that is not an
integer vector, is a hard failure, with the earlier records already
parsed. -/
theorem parse_alignment_stream :
    (∀ recs : List (String × List ℤ), parseStream (encodeRecs recs) = (recs, false)) ∧
    parseStream (encodeRecs [("a", [1, 2]), ("b", [3])])
      = ([("a", [1, 2]), ("b", [3])], false) ∧
    (∀ (recs : List (String × List ℤ)) (v : List ℤ) (rest : List StreamTok),
      parseStream (encodeRecs recs ++ StreamTok.vecTok v :: rest) = (recs, false)) ∧
    (∀ (recs : List (String × List ℤ)) (s : String),
      parseStream (encodeRecs recs ++ [StreamTok.strTok s]) = (recs, true)) ∧
    (∀ (recs : List (String × List ℤ)) (s s2 : String) (rest : List StreamTok),
      parseStream (encodeRecs recs ++ StreamTok.strTok s :: StreamTok.strTok s2 :: rest)
        = (recs, true)) := by
  refine ⟨?_, by decide, ?_, ?_, ?_⟩
  · intro recs
    have h := parseStream_encode_append recs []
    simpa [parseStream] using h
  · intro recs v rest
    have h := parseStream_encode_append recs (StreamTok.vecTok v :: rest)
    simpa [parseStream] using h
  · intro recs s
    have h := parseStream_encode_append recs [StreamTok.strTok s]
    simpa [parseStream] using h
  · intro recs s s2 rest
    have h := parseStream_encode_append recs
      (StreamTok.strTok s :: StreamTok.strTok s2 :: rest)
    simpa [parseStream] using h

end Aspire
